import Mathlib

/-
Shallow embedding of the interruptible graph-execution runtime of this
repository: the state model, the routing functions, the gated tool
execution node with its suspend/resume protocol, and the checkpoint
store, together with theorems settling the stated properties.
-/

/-- A tool call issued by the model: tool name, argument mapping and a
correlation id (the shape used throughout the repository, where a tool
call is a dict with keys name, args, id). -/
structure ToolCall where
  name : String
  args : List (String × String)
  id : String
deriving DecidableEq

/-- A message of the shared state: human, system, assistant (carrying a
possibly empty tool-call list) or a tool result carrying the correlation
id of the tool call it answers and an optional tool name. -/
inductive Message where
  | human (content : String)
  | system (content : String)
  | ai (content : String) (tool_calls : List ToolCall)
  | tool (content : String) (name : Option String) (tool_call_id : String)
deriving DecidableEq

/-- Whether a message is the tool-result answering correlation id cid. -/
def isToolResultFor (cid : String) : Message → Bool
  | .tool _ _ tcid => tcid == cid
  | _ => false

/-- A ToolCall is pending until a matching tool-result message with the
same correlation id appears in the state (data-model definition used by
the routing and gating properties). -/
def isPending (msgs : List Message) (tc : ToolCall) : Bool :=
  !(msgs.any (isToolResultFor tc.id))

/-- The merge rule of the append-only messages channel: plain sequence
concatenation, as declared in agent_with_interrupt.py
(Annotated with operator.add) and sample/simple_agent.py. -/
def mergeMessages (xs ys : List Message) : List Message := xs ++ ys

namespace AgentsGraph

/-- The custom state of agents_graph.py: the messages channel plus an
optional trace-id scalar channel. -/
structure AgentState where
  messages : List Message
  trace_id : Option String
deriving DecidableEq

/-- The two routing outcomes of should_continue in agents_graph.py. -/
inductive Route where
  | human_approval
  | end_
deriving DecidableEq

/-- should_continue of agents_graph.py: looks at the last message and
returns human_approval when it is an AI message with a non-empty
tool-call list, end_ otherwise; none models the IndexError raised by
indexing the last element of an empty message list. -/
def should_continue (state : AgentState) : Option Route :=
  match state.messages.getLast? with
  | some (.ai _ (_ :: _)) => some (.human_approval)
  | some _ => some (.end_)
  | none => none

/-- The START sentinel of the graph framework. -/
def START_NODE : String := "__start__"

/-- The END sentinel of the graph framework. -/
def END_NODE : String := "__end__"

/-- The conditional-edge mapping attached to the agent node:
human_approval maps to the human_approval node, end_ to END. -/
def route_map (r : Route) : String :=
  match r with
  | .human_approval => "human_approval"
  | .end_ => END_NODE

/-- The edge structure built by the workflow in agents_graph.py:
START goes to agent; after agent the conditional edge applies
should_continue through route_map; after human_approval the plain edge
goes back to agent. -/
def routeAfter (node : String) (state : AgentState) : Option String :=
  if node = "agent" then (should_continue state).map route_map
  else if node = START_NODE then some ("agent")
  else if node = "human_approval" then some ("agent")
  else none

/-- An opaque tool collaborator: argument mapping to a result string or
a tool-specific failure. -/
def ToolImpl := List (String × String) → Except String String

/-- The display payload built per tool call and handed to the suspend
primitive (the tool_data dict of agents_graph.py: name always present,
args and html present depending on the tool branch). -/
structure ToolData where
  name : String
  args : Option String
  html : Option String
deriving DecidableEq

/-- Lookup of a key in an argument mapping (dict subscript access;
none models a KeyError). -/
def lookupArg : List (String × String) → String → Option String
  | [], _ => none
  | (k, v) :: rest, key => if k = key then some v else lookupArg rest key

/-- The display text built for a web-search tool call. -/
def webSearchArgsText (toolName : String) (args : List (String × String)) : String :=
  args.foldl (fun acc kv => acc ++ "  * " ++ kv.1 ++ "\n    * " ++ kv.2 ++ "\n")
    ("* ツール名\n  * " ++ toolName ++ "\n* 引数\n")

/-- The display text built for a write-file tool call. -/
def writeFileArgsText (toolName filePath : String) : String :=
  "* ツール名\n  * " ++ toolName ++ "\n* 保存ファイル名\n  * " ++ filePath

/-- Construction of tool_data in _execute_tools_with_approval, branching
on the tool name; the write-file branch subscripts the argument mapping
at file_path and text, so a missing key is a node failure raised before
the suspend point. -/
def buildToolData (webN wfN : String) (tc : ToolCall) : Except String ToolData :=
  if tc.name = webN then
    Except.ok { name := tc.name, args := some (webSearchArgsText tc.name tc.args), html := none }
  else if tc.name = wfN then
    match lookupArg tc.args ("file_path") with
    | none => Except.error ("KeyError: file_path")
    | some fp =>
      match lookupArg tc.args ("text") with
      | none => Except.error ("KeyError: text")
      | some txt =>
        Except.ok { name := tc.name, args := some (writeFileArgsText tc.name fp), html := some txt }
  else Except.ok { name := tc.name, args := none, html := none }

/-- Observable events of one execution attempt of the gating node, in
order: a suspend call that received a resume value, a suspend call that
aborted the attempt (no resume value available), and an invocation of
the external tool collaborator. The idx field records which tool call
of the list (by position) produced the event. -/
inductive Event where
  | interruptReturn (idx : Nat) (data : ToolData) (feedback : String)
  | interruptSuspend (idx : Nat) (data : ToolData)
  | invokeTool (idx : Nat) (name : String) (args : List (String × String))
deriving DecidableEq

/-- The tool-call position an event belongs to. -/
def Event.idx : Event → Nat
  | .interruptReturn i _ _ => i
  | .interruptSuspend i _ => i
  | .invokeTool i _ _ => i

/-- Outcome of one execution attempt of the gating node: completed with
its list of tool-result messages, suspended on an interrupt payload
(the partial update is discarded), or failed with an uncaught error. -/
inductive NodeOutcome where
  | completed (msgs : List Message)
  | suspended (payload : ToolData)
  | failed (err : String)
deriving DecidableEq

/-- Prepend a message to the result list of a completed outcome;
suspension and failure discard messages. -/
def NodeOutcome.consMsg (m : Message) : NodeOutcome → NodeOutcome
  | .completed msgs => .completed (m :: msgs)
  | o => o

/-- The refusal text appended for a denied tool call. -/
def refusalContent : String := "ツール利用が拒否されたため、処理を終了してください。"

/-- The loop of _execute_tools_with_approval over the tool calls, with
the suspend/resume protocol made explicit: the resume-value list holds
the values returned by the suspend calls of this attempt in order, and
an exhausted list means the next suspend call aborts the attempt. The
counter k numbers the tool calls for the event trace. For each call:
build tool_data (dict subscript errors abort the node), suspend, then
on APPROVE look the tool up by name (a missing name is an uncaught
KeyError) and invoke it (an uncaught tool error fails the node), append
the observation as a tool message with the call id; on any other resume
value append the refusal tool message carrying the tool name and id. -/
def execToolsAux (lookup : String → Option ToolImpl) (webN wfN : String) :
    Nat → List ToolCall → List String → List Event × NodeOutcome
  | _, [], _ => ([], .completed [])
  | k, tc :: rest, resumes =>
    match buildToolData webN wfN tc with
    | .error e => ([], .failed e)
    | .ok td =>
      match resumes with
      | [] => ([.interruptSuspend k td], .suspended td)
      | f :: fs =>
        if f = "APPROVE" then
          match lookup tc.name with
          | none => ([.interruptReturn k td f], .failed ("KeyError: " ++ tc.name))
          | some tool =>
            match tool tc.args with
            | .error e => ([.interruptReturn k td f, .invokeTool k tc.name tc.args], .failed e)
            | .ok observation =>
              (.interruptReturn k td f :: .invokeTool k tc.name tc.args ::
                 (execToolsAux lookup webN wfN (k + 1) rest fs).1,
               (execToolsAux lookup webN wfN (k + 1) rest fs).2.consMsg
                 (.tool observation none tc.id))
        else
          (.interruptReturn k td f :: (execToolsAux lookup webN wfN (k + 1) rest fs).1,
           (execToolsAux lookup webN wfN (k + 1) rest fs).2.consMsg
             (.tool refusalContent (some tc.name) tc.id))

/-- _execute_tools_with_approval entered at the first tool call. -/
def execTools (lookup : String → Option ToolImpl) (webN wfN : String)
    (tool_calls : List ToolCall) (resumes : List String) : List Event × NodeOutcome :=
  execToolsAux lookup webN wfN 0 tool_calls resumes

/-- human_approval_node of agents_graph.py: reads the last message
(none models the IndexError on an empty message list), returns an empty
update unless it is an AI message with a non-empty tool-call list, and
otherwise runs the approval loop over its tool calls. -/
def human_approval_node (lookup : String → Option ToolImpl) (webN wfN : String)
    (state : AgentState) (resumes : List String) : Option (List Event × NodeOutcome) :=
  match state.messages.getLast? with
  | none => none
  | some (.ai _ (tc :: tcs)) => some (execTools lookup webN wfN (tc :: tcs) resumes)
  | some _ => some ([], .completed [])

/-- The persisted checkpoint of an execution thread: the state channels
(messages and trace id) plus the name of the node the thread is
suspended at, if any. -/
structure Checkpoint where
  messages : List Message
  trace_id : Option String
  suspendedAt : Option String
deriving DecidableEq

/-- The in-memory checkpoint store: an association list from thread id
to checkpoint (the MemorySaver backing). -/
abbrev CheckpointStore := List (String × Checkpoint)

/-- save replaces the previous checkpoint for the thread id. -/
def saveCheckpoint (store : CheckpointStore) (tid : String) (cp : Checkpoint) : CheckpointStore :=
  (tid, cp) :: store.filter (fun p => p.1 != tid)

/-- load returns the checkpoint for the thread id, if present. -/
def loadCheckpoint : CheckpointStore → String → Option Checkpoint
  | [], _ => none
  | (t, cp) :: rest, tid => if t = tid then some cp else loadCheckpoint rest tid

/-- Errors of the caller-facing resume operation. -/
inductive RunError where
  | unknownThread
  | notSuspended
deriving DecidableEq

/-- Fold one node outcome into the checkpoint: a completed update is
merged into the messages channel and the suspension is cleared; a
suspension or failure leaves the persisted state unchanged. -/
def stepCheckpoint (cp : Checkpoint) (out : NodeOutcome) : Checkpoint :=
  match out with
  | .completed msgs =>
    { messages := mergeMessages cp.messages msgs, trace_id := cp.trace_id, suspendedAt := none }
  | .suspended _ => cp
  | .failed _ => cp

/-- resume on the gating node: load the checkpoint for the thread id
(UnknownThread when absent, NotSuspended when it is not suspended),
re-enter the suspended node from its start feeding the recorded resume
values to its suspend calls in order, and fold the outcome back into
the checkpoint. -/
def resumeThread (lookup : String → Option ToolImpl) (webN wfN : String)
    (store : CheckpointStore) (tid : String) (resumes : List String) :
    Except RunError (List Event × NodeOutcome × Checkpoint) :=
  match loadCheckpoint store tid with
  | none => Except.error (.unknownThread)
  | some cp =>
    match cp.suspendedAt with
    | none => Except.error (.notSuspended)
    | some _ =>
      match cp.messages.getLast? with
      | some (.ai _ (tc :: tcs)) =>
        Except.ok ((execTools lookup webN wfN (tc :: tcs) resumes).1,
          (execTools lookup webN wfN (tc :: tcs) resumes).2,
          stepCheckpoint cp (execTools lookup webN wfN (tc :: tcs) resumes).2)
      | _ => Except.ok ([], .completed [], stepCheckpoint cp (.completed []))

/-- The payloads of the suspend calls of an execution attempt, in the
order the suspend calls happened (both the suspend calls that received
a resume value and the one that aborted the attempt). -/
def suspensionPayloads : List Event → List ToolData
  | [] => []
  | .interruptReturn _ d _ :: rest => d :: suspensionPayloads rest
  | .interruptSuspend _ d :: rest => d :: suspensionPayloads rest
  | .invokeTool _ _ _ :: rest => suspensionPayloads rest

end AgentsGraph

namespace InterruptAgent

/-- The structured final answer of agent_with_interrupt.py, with its
textual fields (the floating-point confidence field and the
calculations mapping are outside the fragment the properties touch). -/
structure FinalAnswer where
  summary : String
  findings : List String
  sources : List String
deriving DecidableEq

/-- The state of agent_with_interrupt.py: an append-merged messages
channel and a replace-merged final answer channel. -/
structure AgentState where
  messages : List Message
  final_answer : Option FinalAnswer
deriving DecidableEq

/-- A sparse node update: messages to append (an absent messages key is
the empty append) and an optional replacement for the final answer. -/
structure PartialUpdate where
  messages : List Message := []
  final_answer : Option (Option FinalAnswer) := none
deriving DecidableEq

/-- Merge a sparse update into the state: append on the messages
channel, replace-with-latest on the final answer channel. -/
def applyUpdate (s : AgentState) (u : PartialUpdate) : AgentState :=
  { messages := mergeMessages s.messages u.messages,
    final_answer := u.final_answer.getD s.final_answer }

/-- The calculator tool of agent_with_interrupt.py: evaluate the
expression (the evaluator is the external collaborator) and return a
result string; an evaluation failure is caught inside the tool and
returned as an error-describing result string. -/
def calculator (evalFn : String → Except String String) (expression : String) : String :=
  match evalFn expression with
  | .ok result => "計算結果: " ++ result
  | .error e => "エラー: " ++ e

/-- The resume value expected by human_review_node: the truthiness of
the approved key and the optional feedback string. -/
structure ApprovalData where
  approved : Bool
  feedback : Option String
deriving DecidableEq

/-- The payload human_review_node hands to the suspend primitive. -/
structure HRPayload where
  type : String
  tool_calls : List ToolCall
  message : String
deriving DecidableEq

/-- Result of one execution attempt of human_review_node. -/
inductive HRResult where
  | suspended (payload : HRPayload)
  | update (u : PartialUpdate)
  | failed (err : String)
deriving DecidableEq

/-- human_review_node of agent_with_interrupt.py (and the identical one
of agent_with_hitl.py): collect the tool calls of the last message,
suspend with them as payload (a resume value of none models the
suspension), then on a truthy approved key return the empty update and
otherwise return one refusal tool message correlated to the id of the
first collected tool call (subscripting an empty collection is an
IndexError). -/
def human_review_node (s : AgentState) (resumeValue : Option ApprovalData) : HRResult :=
  match s.messages.getLast? with
  | none => .failed ("IndexError: messages")
  | some last =>
    let info := match last with
      | .ai _ tcs => tcs
      | _ => ([] : List ToolCall)
    match resumeValue with
    | none =>
      .suspended { type := "human_review", tool_calls := info,
                   message := "ツールの実行には承認が必要です" }
    | some approval =>
      if approval.approved then .update {}
      else
        match info with
        | [] => .failed ("IndexError: tool_calls_info")
        | tc0 :: _ =>
          .update { messages :=
            [Message.tool ("ユーザーがキャンセルしました。フィードバック: " ++
                approval.feedback.getD ("ユーザーが拒否しました")) none tc0.id] }

end InterruptAgent

/-- C4: the append-only messages channel merge is associative: merging
update [a] into s and then merging [b] yields the same message sequence
as merging the concatenation [a, b] into s once. -/
theorem merge_messages_assoc (s : List Message) (a b : Message) :
    mergeMessages (mergeMessages s [a]) [b] = mergeMessages s [a, b] := by
  simp [mergeMessages]

namespace AgentsGraph

theorem execToolsAux_idx_lb (lookup : String → Option ToolImpl) (webN wfN : String)
    (k : Nat) (calls : List ToolCall) (rs : List String) :
    ∀ e ∈ (execToolsAux lookup webN wfN k calls rs).1, k ≤ e.idx := by
  induction calls generalizing k rs with
  | nil => intro e he; simp [execToolsAux] at he
  | cons tc rest ih =>
    intro e he
    cases hbd : buildToolData webN wfN tc with
    | error er => simp [execToolsAux, hbd] at he
    | ok td =>
      cases rs with
      | nil =>
        simp [execToolsAux, hbd] at he
        subst he
        simp [Event.idx]
      | cons f fs =>
        by_cases hf : f = "APPROVE"
        · cases hlk : lookup tc.name with
          | none =>
            simp [execToolsAux, hbd, hf, hlk] at he
            subst he; simp [Event.idx]
          | some tool =>
            cases hto : tool tc.args with
            | error er =>
              simp [execToolsAux, hbd, hf, hlk, hto] at he
              rcases he with he | he <;> (subst he; simp [Event.idx])
            | ok obs =>
              simp [execToolsAux, hbd, hf, hlk, hto] at he
              rcases he with he | he | he
              · subst he; simp [Event.idx]
              · subst he; simp [Event.idx]
              · have := ih (k + 1) fs e he
                omega
        · simp [execToolsAux, hbd, hf] at he
          rcases he with he | he
          · subst he; simp [Event.idx]
          · have := ih (k + 1) fs e he
            omega

theorem execToolsAux_completed_spec (lookup : String → Option ToolImpl) (webN wfN : String)
    (k : Nat) (calls : List ToolCall) (rs : List String)
    (tr : List Event) (msgs : List Message)
    (h : execToolsAux lookup webN wfN k calls rs = (tr, .completed msgs)) :
    msgs.length = calls.length ∧
    ∀ i tc, calls.get? i = some tc →
      ∃ f, rs.get? i = some f ∧
        ((f = "APPROVE" ∧ ∃ tool obs, lookup tc.name = some tool ∧
            tool tc.args = Except.ok obs ∧
            msgs.get? i = some (.tool obs none tc.id) ∧
            Event.invokeTool (k + i) tc.name tc.args ∈ tr) ∨
         (¬ f = "APPROVE" ∧
            msgs.get? i = some (.tool refusalContent (some tc.name) tc.id) ∧
            ∀ n a, Event.invokeTool (k + i) n a ∉ tr)) := by
  induction calls generalizing k rs tr msgs with
  | nil =>
    simp [execToolsAux] at h
    obtain ⟨h1, h2⟩ := h
    subst h1; subst h2
    refine ⟨rfl, ?_⟩
    intro i tc hget
    simp [List.get?] at hget
  | cons tc0 rest ih =>
    cases hbd : buildToolData webN wfN tc0 with
    | error er => simp [execToolsAux, hbd] at h
    | ok td =>
      cases rs with
      | nil => simp [execToolsAux, hbd] at h
      | cons f fs =>
        by_cases hf : f = "APPROVE"
        · cases hlk : lookup tc0.name with
          | none => simp [execToolsAux, hbd, hf, hlk] at h
          | some tool =>
            cases hto : tool tc0.args with
            | error er => simp [execToolsAux, hbd, hf, hlk, hto] at h
            | ok obs =>
              cases hrec : execToolsAux lookup webN wfN (k + 1) rest fs with
              | mk tr' out' =>
                cases out' with
                | suspended p =>
                  simp [execToolsAux, hbd, hf, hlk, hto, hrec, NodeOutcome.consMsg] at h
                | failed er =>
                  simp [execToolsAux, hbd, hf, hlk, hto, hrec, NodeOutcome.consMsg] at h
                | completed msgs' =>
                  have hspec := ih (k + 1) fs tr' msgs' hrec
                  simp [execToolsAux, hbd, hf, hlk, hto, hrec, NodeOutcome.consMsg,
                    Prod.mk.injEq] at h
                  obtain ⟨htr, hmsg⟩ := h
                  subst htr; subst hmsg
                  refine ⟨by simp [hspec.1], ?_⟩
                  intro i tc hget
                  cases i with
                  | zero =>
                    simp [List.get?] at hget
                    subst hget
                    refine ⟨f, rfl, Or.inl ⟨hf, tool, obs, hlk, hto, rfl, ?_⟩⟩
                    simp [Nat.add_zero, List.mem_cons]
                  | succ j =>
                    obtain ⟨f', hf', hbr⟩ := hspec.2 j tc hget
                    refine ⟨f', hf', ?_⟩
                    have hidx : k + 1 + j = k + (j + 1) := by omega
                    rcases hbr with ⟨hap, tool', obs', hlk', hto', hmg, hmem⟩ | ⟨hap, hmg, hnm⟩
                    · exact Or.inl ⟨hap, tool', obs', hlk', hto', hmg, by
                        rw [hidx] at hmem
                        exact List.mem_cons_of_mem _ (List.mem_cons_of_mem _ hmem)⟩
                    · refine Or.inr ⟨hap, hmg, ?_⟩
                      intro n a hmem
                      rcases List.mem_cons.mp hmem with heq | hmem2
                      · exact Event.noConfusion heq
                      · rcases List.mem_cons.mp hmem2 with heq | hmem3
                        · have : k + (j + 1) = k := by
                            injection heq
                          omega
                        · rw [← hidx] at hmem3
                          exact hnm n a hmem3
        · cases hrec : execToolsAux lookup webN wfN (k + 1) rest fs with
          | mk tr' out' =>
            cases out' with
            | suspended p =>
              simp [execToolsAux, hbd, hf, hrec, NodeOutcome.consMsg] at h
            | failed er =>
              simp [execToolsAux, hbd, hf, hrec, NodeOutcome.consMsg] at h
            | completed msgs' =>
              have hspec := ih (k + 1) fs tr' msgs' hrec
              simp [execToolsAux, hbd, hf, hrec, NodeOutcome.consMsg, Prod.mk.injEq] at h
              obtain ⟨htr, hmsg⟩ := h
              subst htr; subst hmsg
              refine ⟨by simp [hspec.1], ?_⟩
              intro i tc hget
              cases i with
              | zero =>
                simp [List.get?] at hget
                subst hget
                refine ⟨f, rfl, Or.inr ⟨hf, rfl, ?_⟩⟩
                intro n a hmem
                rcases List.mem_cons.mp hmem with heq | hmem2
                · exact Event.noConfusion heq
                · have := execToolsAux_idx_lb lookup webN wfN (k + 1) rest fs _ (by
                    rw [hrec]; exact hmem2)
                  simp [Event.idx] at this
              | succ j =>
                obtain ⟨f', hf', hbr⟩ := hspec.2 j tc hget
                refine ⟨f', hf', ?_⟩
                have hidx : k + 1 + j = k + (j + 1) := by omega
                rcases hbr with ⟨hap, tool', obs', hlk', hto', hmg, hmem⟩ | ⟨hap, hmg, hnm⟩
                · exact Or.inl ⟨hap, tool', obs', hlk', hto', hmg, by
                    rw [hidx] at hmem
                    exact List.mem_cons_of_mem _ hmem⟩
                · refine Or.inr ⟨hap, hmg, ?_⟩
                  intro n a hmem
                  rcases List.mem_cons.mp hmem with heq | hmem2
                  · exact Event.noConfusion heq
                  · rw [← hidx] at hmem2
                    exact hnm n a hmem2

theorem execToolsAux_invoke_after_return (lookup : String → Option ToolImpl) (webN wfN : String)
    (k : Nat) (calls : List ToolCall) (rs : List String) :
    ∀ t i n a,
      (execToolsAux lookup webN wfN k calls rs).1.get? t = some (.invokeTool i n a) →
      ∃ s, s < t ∧ ∃ d f,
        (execToolsAux lookup webN wfN k calls rs).1.get? s = some (.interruptReturn i d f) := by
  induction calls generalizing k rs with
  | nil => intro t i n a h; simp [execToolsAux, List.get?] at h
  | cons tc0 rest ih =>
    intro t i n a h
    cases hbd : buildToolData webN wfN tc0 with
    | error er => simp [execToolsAux, hbd, List.get?] at h
    | ok td =>
      cases rs with
      | nil =>
        simp [execToolsAux, hbd] at h
        cases t with
        | zero => simp [List.get?] at h
        | succ t1 => simp [List.get?] at h
      | cons f fs =>
        by_cases hf : f = "APPROVE"
        · subst hf
          cases hlk : lookup tc0.name with
          | none =>
            simp [execToolsAux, hbd, hlk] at h
            cases t with
            | zero => simp [List.get?] at h
            | succ t1 => simp [List.get?] at h
          | some tool =>
            cases hto : tool tc0.args with
            | error er =>
              simp [execToolsAux, hbd, hlk, hto] at h ⊢
              cases t with
              | zero => simp [List.get?] at h
              | succ t1 =>
                cases t1 with
                | zero =>
                  simp [List.get?] at h
                  obtain ⟨hi, hn, ha⟩ := h
                  subst hi
                  exact ⟨0, by omega, td, "APPROVE", by simp [List.get?]⟩
                | succ t2 => simp [List.get?] at h
            | ok obs =>
              simp [execToolsAux, hbd, hlk, hto] at h ⊢
              cases t with
              | zero => simp [List.get?] at h
              | succ t1 =>
                cases t1 with
                | zero =>
                  simp [List.get?] at h
                  obtain ⟨hi, hn, ha⟩ := h
                  subst hi
                  exact ⟨0, by omega, td, "APPROVE", by simp [List.get?]⟩
                | succ t2 =>
                  have h2 : (execToolsAux lookup webN wfN (k + 1) rest fs).1.get? t2 =
                      some (.invokeTool i n a) := by
                    simpa [List.get?] using h
                  obtain ⟨s, hs, d, f', hret⟩ := ih (k + 1) fs t2 i n a h2
                  exact ⟨s + 2, by omega, d, f', by simpa using hret⟩
        · simp [execToolsAux, hbd, hf] at h ⊢
          cases t with
          | zero => simp [List.get?] at h
          | succ t1 =>
            have h2 : (execToolsAux lookup webN wfN (k + 1) rest fs).1.get? t1 =
                some (.invokeTool i n a) := by
              simpa [List.get?] using h
            obtain ⟨s, hs, d, f', hret⟩ := ih (k + 1) fs t1 i n a h2
            exact ⟨s + 1, by omega, d, f', by simpa using hret⟩

end AgentsGraph

/-- A sample tool call used to instantiate the gating properties. -/
def sampleCall : ToolCall :=
  { name := "tavily_search", args := [("query", "2+2")], id := "call-1" }

/-- A sample post-model-call state: the AI response carries one fresh
tool call. -/
def sampleAiState : AgentsGraph.AgentState :=
  { messages := [.human ("what is 2+2?"), .ai ("") [sampleCall]], trace_id := none }

/-- C6: the routing function of agents_graph is total and deterministic
over the states the runtime can produce after the model-call node (all
of which have a non-empty message sequence): should_continue returns
exactly one of human_approval and end_ — never both, never neither, and
never the failure value. -/
theorem routing_total_deterministic (s : AgentsGraph.AgentState) (h : s.messages ≠ []) :
    (AgentsGraph.should_continue s = some (.human_approval) ∧
       ¬ AgentsGraph.should_continue s = some (.end_)) ∨
    (AgentsGraph.should_continue s = some (.end_) ∧
       ¬ AgentsGraph.should_continue s = some (.human_approval)) := by
  cases hm : s.messages.getLast? with
  | none => exact absurd (List.getLast?_eq_none_iff.mp hm) h
  | some m =>
    cases m with
    | ai c tcs =>
      cases tcs with
      | nil => right; simp [AgentsGraph.should_continue, hm]
      | cons a b => left; simp [AgentsGraph.should_continue, hm]
    | human c => right; simp [AgentsGraph.should_continue, hm]
    | system c => right; simp [AgentsGraph.should_continue, hm]
    | tool c n i => right; simp [AgentsGraph.should_continue, hm]

/-- Witness for C6 at a concrete post-model-call state. -/
theorem routing_total_deterministic_witness :
    sampleAiState.messages ≠ [] ∧
    ((AgentsGraph.should_continue sampleAiState = some (.human_approval) ∧
        ¬ AgentsGraph.should_continue sampleAiState = some (.end_)) ∨
     (AgentsGraph.should_continue sampleAiState = some (.end_) ∧
        ¬ AgentsGraph.should_continue sampleAiState = some (.human_approval))) :=
  ⟨by simp [sampleAiState], routing_total_deterministic sampleAiState (by simp [sampleAiState])⟩

/-- The tool call of the C3 counterexample state: its correlation id
already has a matching tool-result message earlier in the state. -/
def pendingCexCall : ToolCall :=
  { name := "tavily_search", args := [("query", "2+2")], id := "1" }

/-- The C3 counterexample state: a post-model-call state whose last
message is an AI message carrying one tool call whose id was already
answered earlier, so the message carries no pending tool call. -/
def pendingCexState : AgentsGraph.AgentState :=
  { messages := [.human ("what is 2+2?"),
                 .ai ("") [pendingCexCall],
                 .tool ("4") none ("1"),
                 .ai ("again") [pendingCexCall]],
    trace_id := none }

/-- C3 counterexample: the last message of this post-model-call state
carries exactly one tool call, that tool call is not pending (its id
already has a result in state), yet the router selects the gated tool
node rather than the terminal marker — so routing does not happen
exactly when the last message carries pending tool calls. -/
theorem routing_pending_cex :
    pendingCexState.messages.getLast? = some (Message.ai ("again") [pendingCexCall]) ∧
    isPending pendingCexState.messages pendingCexCall = false ∧
    AgentsGraph.routeAfter ("agent") pendingCexState = some ("human_approval") := by
  refine ⟨rfl, by decide, rfl⟩

/-- C3 (amended): after the agent node the router selects the gated
tool node exactly when the last (model) message carries a non-empty
tool-call list, and the terminal marker exactly when that list is
empty; when the ids of the carried tool calls are fresh (all still
pending) this coincides with carrying a pending tool call; and after
the gated tool node the router always selects the agent node. -/
theorem routing_policy_amended (s : AgentsGraph.AgentState) (c : String)
    (tcs : List ToolCall)
    (hlast : s.messages.getLast? = some (.ai c tcs)) :
    (AgentsGraph.routeAfter ("agent") s = some ("human_approval") ↔ tcs ≠ []) ∧
    (AgentsGraph.routeAfter ("agent") s = some AgentsGraph.END_NODE ↔ tcs = []) ∧
    ((∀ tc ∈ tcs, isPending s.messages tc = true) →
       (tcs ≠ [] ↔ ∃ tc ∈ tcs, isPending s.messages tc = true)) ∧
    (∀ s2 : AgentsGraph.AgentState,
       AgentsGraph.routeAfter ("human_approval") s2 = some ("agent")) := by
  refine ⟨?_, ?_, ?_, ?_⟩
  · cases tcs with
    | nil =>
      simp [AgentsGraph.routeAfter, AgentsGraph.should_continue, hlast,
        AgentsGraph.route_map, AgentsGraph.END_NODE]
    | cons a b =>
      simp [AgentsGraph.routeAfter, AgentsGraph.should_continue, hlast,
        AgentsGraph.route_map]
  · cases tcs with
    | nil =>
      simp [AgentsGraph.routeAfter, AgentsGraph.should_continue, hlast,
        AgentsGraph.route_map]
    | cons a b =>
      simp [AgentsGraph.routeAfter, AgentsGraph.should_continue, hlast,
        AgentsGraph.route_map, AgentsGraph.END_NODE]
  · intro hfresh
    cases tcs with
    | nil => simp
    | cons a b =>
      constructor
      · intro _
        exact ⟨a, List.mem_cons_self a b, hfresh a (List.mem_cons_self a b)⟩
      · intro _
        simp
  · intro s2
    simp [AgentsGraph.routeAfter, AgentsGraph.START_NODE]

/-- Witness for the amended C3 at a concrete post-model-call state. -/
theorem routing_policy_amended_witness :
    sampleAiState.messages.getLast? = some (.ai ("") [sampleCall]) ∧
    ((AgentsGraph.routeAfter ("agent") sampleAiState = some ("human_approval") ↔
        [sampleCall] ≠ []) ∧
     (AgentsGraph.routeAfter ("agent") sampleAiState = some AgentsGraph.END_NODE ↔
        [sampleCall] = []) ∧
     ((∀ tc ∈ [sampleCall], isPending sampleAiState.messages tc = true) →
        ([sampleCall] ≠ [] ↔ ∃ tc ∈ [sampleCall], isPending sampleAiState.messages tc = true)) ∧
     (∀ s2 : AgentsGraph.AgentState,
        AgentsGraph.routeAfter ("human_approval") s2 = some ("agent"))) :=
  ⟨rfl, routing_policy_amended sampleAiState ("") [sampleCall] rfl⟩

/-- A sample tool registry: the web-search tool answers with the
string 4; no other tool is registered. -/
def sampleLookup : String → Option AgentsGraph.ToolImpl :=
  fun n => if n = "tavily_search" then some (fun _ => Except.ok ("4")) else none

/-- The approval run of the sample tool call. -/
def sampleApproveRun : List AgentsGraph.Event × AgentsGraph.NodeOutcome :=
  AgentsGraph.execTools sampleLookup ("tavily_search") ("write_file")
    [sampleCall] ["APPROVE"]

/-- The denial run of the sample tool call. -/
def sampleDenyRun : List AgentsGraph.Event × AgentsGraph.NodeOutcome :=
  AgentsGraph.execTools sampleLookup ("tavily_search") ("write_file")
    [sampleCall] ["DENY"]

/-- C1: for every tool call whose resume value is not APPROVE, a
completed execution of the gating node appends at the position of that
call a refusal tool-result message correlated to the id of the call,
and the execution never invokes the tool collaborator for that call. -/
theorem deny_appends_refusal_and_skips_tool
    (lookup : String → Option AgentsGraph.ToolImpl) (webN wfN : String)
    (calls : List ToolCall) (resumes : List String)
    (tr : List AgentsGraph.Event) (msgs : List Message)
    (i : Nat) (tc : ToolCall) (f : String)
    (hrun : AgentsGraph.execTools lookup webN wfN calls resumes = (tr, .completed msgs))
    (hc : calls.get? i = some tc)
    (hr : resumes.get? i = some f)
    (hf : ¬ f = "APPROVE") :
    msgs.get? i = some (.tool AgentsGraph.refusalContent (some tc.name) tc.id) ∧
    ∀ n a, AgentsGraph.Event.invokeTool i n a ∉ tr := by
  obtain ⟨_, hspec⟩ :=
    AgentsGraph.execToolsAux_completed_spec lookup webN wfN 0 calls resumes tr msgs hrun
  obtain ⟨f', hf', hbr⟩ := hspec i tc hc
  rw [hr] at hf'
  injection hf' with hff
  subst hff
  rcases hbr with ⟨hap, _⟩ | ⟨hap, hmg, hnm⟩
  · exact absurd hap hf
  · refine ⟨hmg, ?_⟩
    intro n a
    simpa using hnm n a

/-- Witness for C1: the sample tool call is denied; the node result is
the refusal message and the trace holds no tool invocation. -/
theorem deny_appends_refusal_and_skips_tool_witness :
    AgentsGraph.execTools sampleLookup ("tavily_search") ("write_file")
        [sampleCall] ["DENY"] =
      (sampleDenyRun.1,
       .completed [Message.tool AgentsGraph.refusalContent (some ("tavily_search")) ("call-1")]) ∧
    ([sampleCall].get? 0 = some sampleCall) ∧
    (["DENY"].get? 0 = some ("DENY")) ∧
    (¬ ("DENY" : String) = "APPROVE") ∧
    ([Message.tool AgentsGraph.refusalContent (some ("tavily_search")) ("call-1")].get? 0 =
        some (.tool AgentsGraph.refusalContent (some sampleCall.name) sampleCall.id) ∧
     ∀ n a, AgentsGraph.Event.invokeTool 0 n a ∉ sampleDenyRun.1) :=
  ⟨rfl, rfl, rfl, by decide,
   deny_appends_refusal_and_skips_tool sampleLookup ("tavily_search") ("write_file")
     [sampleCall] ["DENY"] sampleDenyRun.1
     [Message.tool AgentsGraph.refusalContent (some ("tavily_search")) ("call-1")]
     0 sampleCall ("DENY") rfl rfl rfl (by decide)⟩

/-- C2: in every execution attempt of the gating node, an invocation of
the external tool collaborator for a tool call occurs strictly after
the suspend call for that same tool call has returned a resume value:
every tool-invocation event in the trace is preceded by the
suspend-returned event of the same call position. -/
theorem tool_invocation_after_resume
    (lookup : String → Option AgentsGraph.ToolImpl) (webN wfN : String)
    (calls : List ToolCall) (resumes : List String)
    (t i : Nat) (n : String) (a : List (String × String))
    (h : (AgentsGraph.execTools lookup webN wfN calls resumes).1.get? t =
      some (.invokeTool i n a)) :
    ∃ s, s < t ∧ ∃ d f,
      (AgentsGraph.execTools lookup webN wfN calls resumes).1.get? s =
        some (.interruptReturn i d f) :=
  AgentsGraph.execToolsAux_invoke_after_return lookup webN wfN 0 calls resumes t i n a h

/-- Witness for C2: in the approved sample run the tool invocation sits
at trace position one, after the suspend-returned event. -/
theorem tool_invocation_after_resume_witness :
    (AgentsGraph.execTools sampleLookup ("tavily_search") ("write_file")
        [sampleCall] ["APPROVE"]).1.get? 1 =
      some (.invokeTool 0 ("tavily_search") [("query", "2+2")]) ∧
    (∃ s, s < 1 ∧ ∃ d f,
      (AgentsGraph.execTools sampleLookup ("tavily_search") ("write_file")
          [sampleCall] ["APPROVE"]).1.get? s =
        some (.interruptReturn 0 d f)) :=
  ⟨rfl, tool_invocation_after_resume sampleLookup ("tavily_search") ("write_file")
    [sampleCall] ["APPROVE"] 1 0 ("tavily_search") [("query", "2+2")] rfl⟩

/-- C5: for every tool call whose resume value is APPROVE, a completed
execution of the gating node invokes the tool collaborator with the
argument mapping of that call, appends a tool-result message whose
correlation id equals the id of the call, and the call is no longer
pending once the update is merged into the state. -/
theorem approve_invokes_tool_and_answers
    (lookup : String → Option AgentsGraph.ToolImpl) (webN wfN : String)
    (stateMsgs : List Message)
    (calls : List ToolCall) (resumes : List String)
    (tr : List AgentsGraph.Event) (msgs : List Message)
    (i : Nat) (tc : ToolCall) (f : String)
    (hrun : AgentsGraph.execTools lookup webN wfN calls resumes = (tr, .completed msgs))
    (hc : calls.get? i = some tc)
    (hr : resumes.get? i = some f)
    (hf : f = "APPROVE") :
    ∃ tool obs, lookup tc.name = some tool ∧ tool tc.args = Except.ok obs ∧
      msgs.get? i = some (.tool obs none tc.id) ∧
      AgentsGraph.Event.invokeTool i tc.name tc.args ∈ tr ∧
      isPending (mergeMessages stateMsgs msgs) tc = false := by
  obtain ⟨_, hspec⟩ :=
    AgentsGraph.execToolsAux_completed_spec lookup webN wfN 0 calls resumes tr msgs hrun
  obtain ⟨f', hf', hbr⟩ := hspec i tc hc
  rw [hr] at hf'
  injection hf' with hff
  subst hff
  subst hf
  rcases hbr with ⟨_, tool, obs, hlk, hto, hmg, hmem⟩ | ⟨hap, _⟩
  · refine ⟨tool, obs, hlk, hto, hmg, by simpa using hmem, ?_⟩
    have hin : Message.tool obs none tc.id ∈ msgs := List.get?_mem hmg
    have hany : (mergeMessages stateMsgs msgs).any (isToolResultFor tc.id) = true := by
      apply List.any_eq_true.mpr
      exact ⟨Message.tool obs none tc.id, by simp [mergeMessages, hin],
        by simp [isToolResultFor]⟩
    simp [isPending, hany]
  · simp at hap

/-- Witness for C5: the sample tool call is approved; the collaborator
runs on its arguments and the answer message retires the call. -/
theorem approve_invokes_tool_and_answers_witness :
    AgentsGraph.execTools sampleLookup ("tavily_search") ("write_file")
        [sampleCall] ["APPROVE"] =
      (sampleApproveRun.1, .completed [Message.tool ("4") none ("call-1")]) ∧
    ([sampleCall].get? 0 = some sampleCall) ∧
    (["APPROVE"].get? 0 = some ("APPROVE")) ∧
    (∃ tool obs, sampleLookup sampleCall.name = some tool ∧
      tool sampleCall.args = Except.ok obs ∧
      [Message.tool ("4") none ("call-1")].get? 0 = some (.tool obs none sampleCall.id) ∧
      AgentsGraph.Event.invokeTool 0 sampleCall.name sampleCall.args ∈ sampleApproveRun.1 ∧
      isPending (mergeMessages sampleAiState.messages [Message.tool ("4") none ("call-1")])
        sampleCall = false) :=
  ⟨rfl, rfl, rfl,
   approve_invokes_tool_and_answers sampleLookup ("tavily_search") ("write_file")
     sampleAiState.messages [sampleCall] ["APPROVE"] sampleApproveRun.1
     [Message.tool ("4") none ("call-1")] 0 sampleCall ("APPROVE") rfl rfl rfl rfl⟩

/-- C9: for every AI message carrying k tool calls that reaches the
gating node, a completed execution of that node returns exactly k
tool-result messages, one per tool call in the same order, each with a
correlation id equal to the id of the corresponding tool call,
whatever mix of approvals and denials was supplied. -/
theorem gating_node_one_result_per_call
    (lookup : String → Option AgentsGraph.ToolImpl) (webN wfN : String)
    (s : AgentsGraph.AgentState) (c : String) (calls : List ToolCall)
    (resumes : List String) (tr : List AgentsGraph.Event) (msgs : List Message)
    (hlast : s.messages.getLast? = some (.ai c calls))
    (hrun : AgentsGraph.human_approval_node lookup webN wfN s resumes =
      some (tr, .completed msgs)) :
    msgs.length = calls.length ∧
    ∀ i tc, calls.get? i = some tc →
      ∃ cnt nm, msgs.get? i = some (.tool cnt nm tc.id) := by
  cases calls with
  | nil =>
    simp [AgentsGraph.human_approval_node, hlast] at hrun
    obtain ⟨h1, h2⟩ := hrun
    subst h2
    refine ⟨rfl, ?_⟩
    intro i tc hget
    simp [List.get?] at hget
  | cons tc0 rest =>
    simp [AgentsGraph.human_approval_node, hlast] at hrun
    have hexec : AgentsGraph.execTools lookup webN wfN (tc0 :: rest) resumes =
        (tr, .completed msgs) := by
      cases hx : AgentsGraph.execTools lookup webN wfN (tc0 :: rest) resumes with
      | mk a b =>
        rw [hx] at hrun
        simp at hrun
        simp [hrun.1, hrun.2]
    obtain ⟨hlen, hspec⟩ :=
      AgentsGraph.execToolsAux_completed_spec lookup webN wfN 0 (tc0 :: rest) resumes
        tr msgs hexec
    refine ⟨hlen, ?_⟩
    intro i tc hget
    obtain ⟨f, _, hbr⟩ := hspec i tc hget
    rcases hbr with ⟨_, tool, obs, _, _, hmg, _⟩ | ⟨_, hmg, _⟩
    · exact ⟨obs, none, hmg⟩
    · exact ⟨AgentsGraph.refusalContent, some tc.name, hmg⟩

/-- Witness for C9: the sample state carries one tool call and the
denied run returns exactly one correlated tool-result message. -/
theorem gating_node_one_result_per_call_witness :
    sampleAiState.messages.getLast? = some (.ai ("") [sampleCall]) ∧
    AgentsGraph.human_approval_node sampleLookup ("tavily_search") ("write_file")
        sampleAiState ["DENY"] =
      some (sampleDenyRun.1,
        .completed [Message.tool AgentsGraph.refusalContent (some ("tavily_search")) ("call-1")]) ∧
    ([Message.tool AgentsGraph.refusalContent (some ("tavily_search")) ("call-1")].length =
        [sampleCall].length ∧
     ∀ i tc, [sampleCall].get? i = some tc →
       ∃ cnt nm,
         [Message.tool AgentsGraph.refusalContent (some ("tavily_search")) ("call-1")].get? i =
           some (.tool cnt nm tc.id)) :=
  ⟨rfl, rfl,
   gating_node_one_result_per_call sampleLookup ("tavily_search") ("write_file")
     sampleAiState ("") [sampleCall] ["DENY"] sampleDenyRun.1
     [Message.tool AgentsGraph.refusalContent (some ("tavily_search")) ("call-1")]
     rfl rfl⟩

/-- C7 counterexample: an approved tool call whose tool collaborator
fails makes the gating node itself fail — the node has no handler, so
the failure is not converted into a tool-result message inside the
node; it propagates out of the node. -/
theorem tool_error_propagates_cex :
    (AgentsGraph.execTools
        (fun n => if n = "mytool" then some (fun _ => Except.error ("boom")) else none)
        ("tavily_search") ("write_file")
        [{ name := "mytool", args := [], id := "c1" }] ["APPROVE"]).2 =
      AgentsGraph.NodeOutcome.failed ("boom") := by
  rfl

/-- C7 (amended): the gating node of agents_graph does not catch tool
collaborator failures — an approved call whose tool fails makes the
whole node fail with that error; it is instead the calculator tool of
agent_with_interrupt that catches its own evaluation failure inside
the tool and returns a result string describing the failure. -/
theorem tool_error_handling_amended
    (lookup : String → Option AgentsGraph.ToolImpl) (webN wfN : String)
    (tc : ToolCall) (td : AgentsGraph.ToolData) (tool : AgentsGraph.ToolImpl) (err : String)
    (hbd : AgentsGraph.buildToolData webN wfN tc = Except.ok td)
    (hlk : lookup tc.name = some tool)
    (hto : tool tc.args = Except.error err) :
    (AgentsGraph.execTools lookup webN wfN [tc] ["APPROVE"]).2 =
      AgentsGraph.NodeOutcome.failed err ∧
    (∀ (evalFn : String → Except String String) (expr e : String),
       evalFn expr = Except.error e →
       InterruptAgent.calculator evalFn expr = "エラー: " ++ e) := by
  constructor
  · simp [AgentsGraph.execTools, AgentsGraph.execToolsAux, hbd, hlk, hto]
  · intro evalFn expr e he
    simp [InterruptAgent.calculator, he]

/-- Witness for the amended C7 at a concrete failing tool. -/
theorem tool_error_handling_amended_witness :
    AgentsGraph.buildToolData ("tavily_search") ("write_file")
        { name := "mytool", args := [], id := "c1" } =
      Except.ok { name := "mytool", args := none, html := none } ∧
    ((fun n => if n = "mytool" then
        some ((fun _ => Except.error ("boom")) : AgentsGraph.ToolImpl) else none) ("mytool") =
      some (fun _ => Except.error ("boom"))) ∧
    ((fun _ => Except.error ("boom")) ([] : List (String × String)) =
      (Except.error ("boom") : Except String String)) ∧
    ((AgentsGraph.execTools
        (fun n => if n = "mytool" then some (fun _ => Except.error ("boom")) else none)
        ("tavily_search") ("write_file")
        [{ name := "mytool", args := [], id := "c1" }] ["APPROVE"]).2 =
      AgentsGraph.NodeOutcome.failed ("boom") ∧
     (∀ (evalFn : String → Except String String) (expr e : String),
        evalFn expr = Except.error e →
        InterruptAgent.calculator evalFn expr = "エラー: " ++ e)) :=
  ⟨rfl, rfl, rfl,
   tool_error_handling_amended
     (fun n => if n = "mytool" then some (fun _ => Except.error ("boom")) else none)
     ("tavily_search") ("write_file")
     { name := "mytool", args := [], id := "c1" }
     { name := "mytool", args := none, html := none }
     (fun _ => Except.error ("boom")) ("boom") rfl rfl rfl⟩

/-- C8: resume replay is deterministic: two resume calls that load the
same persisted checkpoint for the thread (in particular one made by a
fresh process that reloaded the checkpoint from the store) and are fed
the same resume-value sequence produce identical results — the same
sequence of suspension payloads and the same final checkpoint — and a
saved checkpoint round-trips exactly through load. -/
theorem resume_replay_deterministic
    (lookup : String → Option AgentsGraph.ToolImpl) (webN wfN tid : String)
    (s1 s2 : AgentsGraph.CheckpointStore) (resumes : List String)
    (h : AgentsGraph.loadCheckpoint s1 tid = AgentsGraph.loadCheckpoint s2 tid) :
    AgentsGraph.resumeThread lookup webN wfN s1 tid resumes =
      AgentsGraph.resumeThread lookup webN wfN s2 tid resumes ∧
    (∀ r1 r2,
       AgentsGraph.resumeThread lookup webN wfN s1 tid resumes = Except.ok r1 →
       AgentsGraph.resumeThread lookup webN wfN s2 tid resumes = Except.ok r2 →
       AgentsGraph.suspensionPayloads r1.1 = AgentsGraph.suspensionPayloads r2.1 ∧
       r1.2.2 = r2.2.2) ∧
    (∀ (store : AgentsGraph.CheckpointStore) (cp : AgentsGraph.Checkpoint),
       AgentsGraph.loadCheckpoint (AgentsGraph.saveCheckpoint store tid cp) tid = some cp) := by
  have heq : AgentsGraph.resumeThread lookup webN wfN s1 tid resumes =
      AgentsGraph.resumeThread lookup webN wfN s2 tid resumes := by
    simp only [AgentsGraph.resumeThread]
    rw [h]
  refine ⟨heq, ?_, ?_⟩
  · intro r1 r2 h1 h2
    rw [heq, h2] at h1
    injection h1 with h3
    subst h3
    exact ⟨rfl, rfl⟩
  · intro store cp
    simp [AgentsGraph.saveCheckpoint, AgentsGraph.loadCheckpoint]

/-- The checkpoint persisted at the sample suspension. -/
def sampleCheckpoint : AgentsGraph.Checkpoint :=
  { messages := sampleAiState.messages, trace_id := none,
    suspendedAt := some ("human_approval") }

/-- Witness for C8: an in-memory store and a freshly rebuilt store
holding the same checkpoint resume identically. -/
theorem resume_replay_deterministic_witness :
    AgentsGraph.loadCheckpoint [(("t1" : String), sampleCheckpoint)] ("t1") =
      AgentsGraph.loadCheckpoint (AgentsGraph.saveCheckpoint [] ("t1") sampleCheckpoint) ("t1") ∧
    (AgentsGraph.resumeThread sampleLookup ("tavily_search") ("write_file")
        [(("t1" : String), sampleCheckpoint)] ("t1") ["APPROVE"] =
      AgentsGraph.resumeThread sampleLookup ("tavily_search") ("write_file")
        (AgentsGraph.saveCheckpoint [] ("t1") sampleCheckpoint) ("t1") ["APPROVE"] ∧
     (∀ r1 r2,
        AgentsGraph.resumeThread sampleLookup ("tavily_search") ("write_file")
            [(("t1" : String), sampleCheckpoint)] ("t1") ["APPROVE"] = Except.ok r1 →
        AgentsGraph.resumeThread sampleLookup ("tavily_search") ("write_file")
            (AgentsGraph.saveCheckpoint [] ("t1") sampleCheckpoint) ("t1") ["APPROVE"] =
          Except.ok r2 →
        AgentsGraph.suspensionPayloads r1.1 = AgentsGraph.suspensionPayloads r2.1 ∧
        r1.2.2 = r2.2.2) ∧
     (∀ (store : AgentsGraph.CheckpointStore) (cp : AgentsGraph.Checkpoint),
        AgentsGraph.loadCheckpoint (AgentsGraph.saveCheckpoint store ("t1") cp) ("t1") =
          some cp)) :=
  ⟨rfl,
   resume_replay_deterministic sampleLookup ("tavily_search") ("write_file") ("t1")
     [(("t1" : String), sampleCheckpoint)]
     (AgentsGraph.saveCheckpoint [] ("t1") sampleCheckpoint) ["APPROVE"] rfl⟩

/-- C10: in the human_review variant, when the last message carries at
least one tool call, a falsy approval returns exactly one refusal
tool-result message correlated only to the id of the first tool call —
later tool calls receive no result and stay pending — and a truthy
approval returns the empty update, which leaves every channel of the
state unchanged. -/
theorem human_review_deny_and_approve
    (s : InterruptAgent.AgentState) (c : String) (tc0 : ToolCall) (rest : List ToolCall)
    (fb : Option String)
    (hlast : s.messages.getLast? = some (.ai c (tc0 :: rest))) :
    (InterruptAgent.human_review_node s (some { approved := false, feedback := fb }) =
       .update { messages :=
         [Message.tool ("ユーザーがキャンセルしました。フィードバック: " ++
             fb.getD ("ユーザーが拒否しました")) none tc0.id] }) ∧
    (∀ tc ∈ rest, ¬ tc.id = tc0.id → isPending s.messages tc = true →
       isPending
         (mergeMessages s.messages
           [Message.tool ("ユーザーがキャンセルしました。フィードバック: " ++
               fb.getD ("ユーザーが拒否しました")) none tc0.id]) tc = true) ∧
    (InterruptAgent.human_review_node s (some { approved := true, feedback := fb }) =
       .update {}) ∧
    InterruptAgent.applyUpdate s {} = s := by
  refine ⟨?_, ?_, ?_, ?_⟩
  · simp [InterruptAgent.human_review_node, hlast]
  · intro tc hmem hne hpend
    simp [isPending, mergeMessages, List.any_append, isToolResultFor] at hpend ⊢
    exact ⟨hpend, fun hco => hne hco.symm⟩
  · simp [InterruptAgent.human_review_node, hlast]
  · simp [InterruptAgent.applyUpdate, mergeMessages]

/-- The calculator tool call of the human-review witness state. -/
def calcCall : ToolCall :=
  { name := "calculator", args := [("expression", "2+2")], id := "c1" }

/-- A second tool call in the same AI message, still unanswered. -/
def otherCall : ToolCall :=
  { name := "search_web", args := [("query", "x")], id := "c2" }

/-- The human-review witness state: one AI message with two calls. -/
def sampleHRState : InterruptAgent.AgentState :=
  { messages := [.human ("go"), .ai ("") [calcCall, otherCall]], final_answer := none }

/-- Witness for C10 at a concrete two-call state. -/
theorem human_review_deny_and_approve_witness :
    sampleHRState.messages.getLast? = some (.ai ("") [calcCall, otherCall]) ∧
    ((InterruptAgent.human_review_node sampleHRState
        (some { approved := false, feedback := some ("no") }) =
       .update { messages :=
         [Message.tool ("ユーザーがキャンセルしました。フィードバック: " ++
             (some ("no")).getD ("ユーザーが拒否しました")) none calcCall.id] }) ∧
     (∀ tc ∈ [otherCall], ¬ tc.id = calcCall.id → isPending sampleHRState.messages tc = true →
        isPending
          (mergeMessages sampleHRState.messages
            [Message.tool ("ユーザーがキャンセルしました。フィードバック: " ++
                (some ("no")).getD ("ユーザーが拒否しました")) none calcCall.id]) tc = true) ∧
     (InterruptAgent.human_review_node sampleHRState
        (some { approved := true, feedback := some ("no") }) = .update {}) ∧
     InterruptAgent.applyUpdate sampleHRState {} = sampleHRState) :=
  ⟨rfl, human_review_deny_and_approve sampleHRState ("") calcCall [otherCall]
    (some ("no")) rfl⟩
